import Mathlib

/-!
Shallow embedding of `src/connection.hpp` from the netstream repository.

The repository ships only the header: the inline bodies
(the handle-adopting `TCP_Connection` constructor, `isOk` for both concrete
types, `get_failure` for both base classes, the private copy declarations and
the data members) are embedded directly from the source.  The out-of-line
bodies (`TCP_Connection::read` / `write`, both destructors, the connecting
constructor, `TCP_Server::TCP_Server` and `TCP_Server::accept`) are not under
`src/`; those are modelled from the spec and each such definition says so in
its doc comment.

C++ methods that may mutate the object are embedded as functions returning a
pair (result, updated object); platform socket handles are `Nat`; the outcome
of each platform primitive (`recv`, `send`, `accept`, `connect`, bind+listen)
is an explicit argument of an inductive result type, so the embedded
operations are total functions of the object state and the OS outcome.
-/

namespace netstream

/-- Base class `Connection` (src/connection.hpp lines 25-68): its only data
member is `failure_reason`, a `std::string` that is default-initialized to the
empty string by every derived-class constructor that does not set it. -/
structure Connection where
  failure_reason : String
deriving DecidableEq, Repr

/-- `Connection::get_failure` (src/connection.hpp lines 63-64):
`{ return( failure_reason ); }` — returns the stored string and, being a
non-const method, is embedded as (result, updated subobject); the body reads
only. -/
def Connection.get_failure (self : Connection) : String × Connection :=
  (self.failure_reason, self)

/-- `TCP_Connection` (src/connection.hpp lines 72-123): a `Connection` with a
platform socket handle and an `is_open` flag. -/
structure TCP_Connection extends Connection where
  connection_handle : Nat
  is_open : Bool
deriving DecidableEq, Repr

/-- Handle-adopting constructor `TCP_Connection(int existing_connection)`
(src/connection.hpp lines 92-94): initializer list stores the handle and sets
`is_open( true )`; `failure_reason` is default-initialized to `""`. -/
def TCP_Connection.ofHandle (existing_connection : Nat) : TCP_Connection :=
  { failure_reason := ""
    connection_handle := existing_connection
    is_open := true }

/-- `TCP_Connection::isOk` (src/connection.hpp lines 109-110):
`{ return( is_open ); }`. -/
def TCP_Connection.isOk (c : TCP_Connection) : Bool :=
  c.is_open

/-- Calling the inherited non-virtual `get_failure` on a `TCP_Connection`:
the base method runs on the `Connection` subobject and can touch only its
fields; the derived fields are carried across unchanged. -/
def TCP_Connection.get_failure (c : TCP_Connection) : String × TCP_Connection :=
  let r := c.toConnection.get_failure
  (r.1, { c with toConnection := r.2 })

/-- Outcome of the platform `recv` primitive on an open socket: a positive
byte count, zero for end-of-stream, or a platform error. -/
inductive RecvResult where
  | data (n : Nat)
  | eof
  | fail (msg : String)
deriving DecidableEq, Repr

/-- Outcome of the platform `send` primitive: a byte count accepted, or a
platform error. -/
inductive SendResult where
  | sent (n : Nat)
  | fail (msg : String)
deriving DecidableEq, Repr

/-- Modelled from the spec: the body of `TCP_Connection::read` is not under
`src/` (the header declares it at line 106).  Spec 4.2: read delegates to the
platform primitive; a platform-reported error is translated into
`is_open=false` plus a human-readable `failure_reason` and a negative return;
`recv` returning `0` signals a clean peer close, is returned as `0`, and does
not by itself flip `is_open`; on a connection that is already closed the call
fails gracefully (negative return, no state change).  The buffer contents are
not modelled; `count` is the caller's buffer size. -/
def TCP_Connection.read (c : TCP_Connection) (count : Nat) (os : RecvResult) :
    Int × TCP_Connection :=
  if c.is_open then
    match os with
    | .data n => (n, c)
    | .eof => (0, c)
    | .fail msg => (-1, { c with is_open := false, failure_reason := msg })
  else
    (-1, c)

/-- Modelled from the spec: the body of `TCP_Connection::write` is not under
`src/` (the header declares it at line 107).  Spec 4.2: write delegates to the
platform primitive and returns the number of bytes accepted; a platform error
is translated into `is_open=false` plus a `failure_reason` and a negative
return; on an already-closed connection the call fails gracefully. -/
def TCP_Connection.write (c : TCP_Connection) (count : Nat) (os : SendResult) :
    Int × TCP_Connection :=
  if c.is_open then
    match os with
    | .sent n => (n, c)
    | .fail msg => (-1, { c with is_open := false, failure_reason := msg })
  else
    (-1, c)

/-- Outcome the OS reports to the connecting constructor: a fresh connected
handle, or a resolution/connect failure with a diagnostic. -/
inductive ConnectResult where
  | ok (h : Nat)
  | fail (msg : String)
deriving DecidableEq, Repr

/-- Modelled from the spec: the body of `TCP_Connection(const char *host,
unsigned short port)` is not under `src/` (declared at line 82).  Spec 4.2:
on success the object holds the fresh connected handle with `is_open=true`;
on any resolution or connection failure the object is left with
`is_open=false` and `failure_reason` set to a descriptive message. -/
def TCP_Connection.connect (host : String) (port : Nat) (os : ConnectResult) :
    TCP_Connection :=
  match os with
  | .ok h => { failure_reason := "", connection_handle := h, is_open := true }
  | .fail msg => { failure_reason := msg, connection_handle := 0, is_open := false }

/-- Modelled from the spec: the body of `~TCP_Connection` is not under `src/`
(declared at line 104).  Spec 4.2 Destruction: if `is_open`, the handle is
released back to the OS; idempotent guard against double-release if already
closed.  The result is the list of handles the destructor closes. -/
def TCP_Connection.destroy (c : TCP_Connection) : List Nat :=
  if c.is_open then [c.connection_handle] else []

/-- Base class `Server` (src/connection.hpp lines 130-158): its only data
member is `failure_reason`. -/
structure Server where
  failure_reason : String
deriving DecidableEq, Repr

/-- `Server::get_failure` (src/connection.hpp lines 153-154):
`{ return( failure_reason ); }`. -/
def Server.get_failure (self : Server) : String × Server :=
  (self.failure_reason, self)

/-- `TCP_Server` (src/connection.hpp lines 162-197): a `Server` with a
platform listening handle and an `is_listening` flag. -/
structure TCP_Server extends Server where
  listen_handle : Nat
  is_listening : Bool
deriving DecidableEq, Repr

/-- `TCP_Server::isOk` (src/connection.hpp lines 183-184):
`{ return( is_listening ); }`. -/
def TCP_Server.isOk (s : TCP_Server) : Bool :=
  s.is_listening

/-- Calling the inherited non-virtual `get_failure` on a `TCP_Server`: the
base method runs on the `Server` subobject; derived fields carry across
unchanged. -/
def TCP_Server.get_failure (s : TCP_Server) : String × TCP_Server :=
  let r := s.toServer.get_failure
  (r.1, { s with toServer := r.2 })

/-- Outcome the OS reports to the `TCP_Server` constructor: a fresh bound and
listening handle, or a socket/bind/listen failure. -/
inductive BindResult where
  | ok (h : Nat)
  | fail (msg : String)
deriving DecidableEq, Repr

/-- Modelled from the spec: the body of `TCP_Server(unsigned short port)` is
not under `src/` (declared at line 172).  Spec 4.4: creates, binds and listens
on the port; failure at any step leaves `is_listening=false` and a descriptive
`failure_reason`; success leaves the object listening on the fresh handle. -/
def TCP_Server.construct (port : Nat) (os : BindResult) : TCP_Server :=
  match os with
  | .ok h => { failure_reason := "", listen_handle := h, is_listening := true }
  | .fail msg => { failure_reason := msg, listen_handle := 0, is_listening := false }

/-- Modelled from the spec: the body of `~TCP_Server` is not under `src/`
(declared at line 179).  Spec 4.4 Destruction: if `is_listening`, the
listening handle is closed; otherwise nothing is released.  The result is the
list of handles the destructor closes. -/
def TCP_Server.destroy (s : TCP_Server) : List Nat :=
  if s.is_listening then [s.listen_handle] else []

/-- Outcome the OS reports to `accept`: a client completed its handshake and
the OS handed back the accepted handle, or the wait failed. -/
inductive AcceptResult where
  | client (h : Nat)
  | fail (msg : String)
deriving DecidableEq, Repr

/-- Modelled from the spec: the body of `TCP_Server::accept` is not under
`src/` (declared at line 181).  Spec 4.4: blocks until a client connects; on
success wraps the newly accepted platform handle in a `TCP_Connection` via the
handle-adopting constructor and returns it (heap allocation and the ownership
hand-off to the caller are abstracted; `none` stands for no object being
returned); a listener-level failure is reflected in the server's own status
and diagnostic. -/
def TCP_Server.accept (s : TCP_Server) (os : AcceptResult) :
    Option TCP_Connection × TCP_Server :=
  if s.is_listening then
    match os with
    | .client h => (some (TCP_Connection.ofHandle h), s)
    | .fail msg => (none, { s with is_listening := false, failure_reason := msg })
  else
    (none, s)

/-- The platform handles currently held by the open connection objects in a
list of live connections. -/
def heldConnHandles (conns : List TCP_Connection) : List Nat :=
  (conns.filter (fun c => c.is_open)).map (fun c => c.connection_handle)

/-- The platform handles currently held by the listening server objects in a
list of live servers. -/
def heldServerHandles (servers : List TCP_Server) : List Nat :=
  (servers.filter (fun s => s.is_listening)).map (fun s => s.listen_handle)

/-- The population of live netstream objects in a program at one instant. -/
structure SysState where
  conns : List TCP_Connection
  servers : List TCP_Server

/-- Every platform handle held by some live open connection or listening
server. -/
def SysState.held (st : SysState) : List Nat :=
  heldConnHandles st.conns ++ heldServerHandles st.servers

/-- One I/O operation on a connection: a `read` or a `write` call, carrying
the caller's byte count and the platform outcome. -/
inductive ConnEvent where
  | recv (count : Nat) (os : RecvResult)
  | send (count : Nat) (os : SendResult)
deriving DecidableEq, Repr

/-- The state a connection is left in by one I/O operation. -/
def connExec (c : TCP_Connection) (e : ConnEvent) : TCP_Connection :=
  match e with
  | .recv count os => (c.read count os).2
  | .send count os => (c.write count os).2

/-- Modelled from the spec: coupling of a connection with the set of handles
the OS currently regards as live, usable sockets.  A platform error on an
operation means the socket is no longer usable, so the handle leaves the live
set exactly when the modelled `read`/`write` flips `is_open`; a clean
end-of-stream leaves the socket usable.  Operations on an already-closed
object never reach the OS. -/
def connStep (c : TCP_Connection) (live : Finset Nat) (e : ConnEvent) :
    TCP_Connection × Finset Nat :=
  if c.is_open then
    match e with
    | .recv count os =>
        match os with
        | .fail _ => ((c.read count os).2, live.erase c.connection_handle)
        | _ => ((c.read count os).2, live)
    | .send count os =>
        match os with
        | .fail _ => ((c.write count os).2, live.erase c.connection_handle)
        | _ => ((c.write count os).2, live)
  else
    (c, live)

/-- Modelled from the spec: the operations a client of the library can
perform on the population of live objects, as a step relation.  Construction
enters objects through the embedded constructors; `io` is a `read` or `write`
call on one live connection; `acceptOp` is an `accept` call on one live
server (on success the accepted object joins the population, as when the
caller keeps the returned pointer); destruction removes an object.  There is
deliberately no copy step: copy construction and copy assignment are declared
private and unimplemented for both concrete types (src/connection.hpp lines
120-122 and 194-196), so no operation duplicates a live object.  The
freshness hypotheses state that a handle entering through a constructor is
handed off exactly once: the OS returns only handles it has not already
given out, and an adopted handle's original external reference is
relinquished (spec 3: ownership transfers; the original copy must not be
kept). -/
inductive SysStep : SysState → SysState → Prop where
  | adopt (st : SysState) (h : Nat) (hfresh : h ∉ st.held) :
      SysStep st ⟨TCP_Connection.ofHandle h :: st.conns, st.servers⟩
  | connectOk (st : SysState) (host : String) (port h : Nat) (hfresh : h ∉ st.held) :
      SysStep st ⟨TCP_Connection.connect host port (ConnectResult.ok h) :: st.conns, st.servers⟩
  | connectFail (st : SysState) (host : String) (port : Nat) (msg : String) :
      SysStep st ⟨TCP_Connection.connect host port (ConnectResult.fail msg) :: st.conns,
        st.servers⟩
  | listenOk (st : SysState) (port h : Nat) (hfresh : h ∉ st.held) :
      SysStep st ⟨st.conns, TCP_Server.construct port (BindResult.ok h) :: st.servers⟩
  | listenFail (st : SysState) (port : Nat) (msg : String) :
      SysStep st ⟨st.conns, TCP_Server.construct port (BindResult.fail msg) :: st.servers⟩
  | io (pre : List TCP_Connection) (c : TCP_Connection) (post : List TCP_Connection)
      (servers : List TCP_Server) (e : ConnEvent) :
      SysStep ⟨pre ++ c :: post, servers⟩ ⟨pre ++ connExec c e :: post, servers⟩
  | acceptOp (conns : List TCP_Connection) (pre : List TCP_Server) (s : TCP_Server)
      (post : List TCP_Server) (os : AcceptResult)
      (hfresh : ∀ h, os = AcceptResult.client h →
        h ∉ SysState.held ⟨conns, pre ++ s :: post⟩) :
      SysStep ⟨conns, pre ++ s :: post⟩
        ⟨(s.accept os).1.toList ++ conns, pre ++ (s.accept os).2 :: post⟩
  | destroyConn (pre : List TCP_Connection) (c : TCP_Connection) (post : List TCP_Connection)
      (servers : List TCP_Server) :
      SysStep ⟨pre ++ c :: post, servers⟩ ⟨pre ++ post, servers⟩
  | destroyServer (conns : List TCP_Connection) (pre : List TCP_Server) (s : TCP_Server)
      (post : List TCP_Server) :
      SysStep ⟨conns, pre ++ s :: post⟩ ⟨conns, pre ++ post⟩

/-! ### Helper lemmas shared by several claims -/

theorem TCP_Connection.read_handle (c : TCP_Connection) (count : Nat) (os : RecvResult) :
    (c.read count os).2.connection_handle = c.connection_handle := by
  unfold TCP_Connection.read
  split
  · cases os <;> rfl
  · rfl

theorem TCP_Connection.read_open_mono (c : TCP_Connection) (count : Nat) (os : RecvResult) :
    (c.read count os).2.is_open = true → c.is_open = true := by
  unfold TCP_Connection.read
  split
  · next h => exact fun _ => h
  · exact fun h => h

theorem TCP_Connection.write_handle (c : TCP_Connection) (count : Nat) (os : SendResult) :
    (c.write count os).2.connection_handle = c.connection_handle := by
  unfold TCP_Connection.write
  split
  · cases os <;> rfl
  · rfl

theorem TCP_Connection.write_open_mono (c : TCP_Connection) (count : Nat) (os : SendResult) :
    (c.write count os).2.is_open = true → c.is_open = true := by
  unfold TCP_Connection.write
  split
  · next h => exact fun _ => h
  · exact fun h => h

theorem connExec_handle (c : TCP_Connection) (e : ConnEvent) :
    (connExec c e).connection_handle = c.connection_handle := by
  cases e with
  | recv count os => exact c.read_handle count os
  | send count os => exact c.write_handle count os

theorem connExec_open_mono (c : TCP_Connection) (e : ConnEvent) :
    (connExec c e).is_open = true → c.is_open = true := by
  cases e with
  | recv count os => exact c.read_open_mono count os
  | send count os => exact c.write_open_mono count os

theorem TCP_Connection.read_state_data (c : TCP_Connection) (hopen : c.is_open = true)
    (count n : Nat) : (c.read count (RecvResult.data n)).2 = c := by
  unfold TCP_Connection.read; rw [if_pos hopen]

theorem TCP_Connection.read_state_eof (c : TCP_Connection) (hopen : c.is_open = true)
    (count : Nat) : (c.read count RecvResult.eof).2 = c := by
  unfold TCP_Connection.read; rw [if_pos hopen]

theorem TCP_Connection.read_state_fail (c : TCP_Connection) (hopen : c.is_open = true)
    (count : Nat) (msg : String) : (c.read count (RecvResult.fail msg)).2 =
      { c with is_open := false, failure_reason := msg } := by
  unfold TCP_Connection.read; rw [if_pos hopen]

theorem TCP_Connection.write_state_sent (c : TCP_Connection) (hopen : c.is_open = true)
    (count n : Nat) : (c.write count (SendResult.sent n)).2 = c := by
  unfold TCP_Connection.write; rw [if_pos hopen]

theorem TCP_Connection.write_state_fail (c : TCP_Connection) (hopen : c.is_open = true)
    (count : Nat) (msg : String) : (c.write count (SendResult.fail msg)).2 =
      { c with is_open := false, failure_reason := msg } := by
  unfold TCP_Connection.write; rw [if_pos hopen]

/-! ### Claims -/

/-- C1: the handle-adopting constructor (src/connection.hpp lines 92-94)
stores the given handle as the object's connection handle and sets `is_open`
to `true` unconditionally, so `isOk()` returns `true` immediately after
construction for every handle value; the object now holds (owns) the handle
itself. -/
theorem C1_adopting_ctor (h : Nat) :
    (TCP_Connection.ofHandle h).connection_handle = h ∧
    (TCP_Connection.ofHandle h).is_open = true ∧
    (TCP_Connection.ofHandle h).isOk = true :=
  ⟨rfl, rfl, rfl⟩

/-- C2: when `TCP_Server::accept` succeeds (the server is listening and a
client completed its handshake, the OS handing back handle `h`), the method
returns a new `TCP_Connection` built by the handle-adopting constructor from
`h`, and every connection so returned reports `isOk() = true`. -/
theorem C2_accept_success (s : TCP_Server) (h : Nat) (hl : s.is_listening = true) :
    (s.accept (AcceptResult.client h)).1 = some (TCP_Connection.ofHandle h) ∧
    ∀ conn, (s.accept (AcceptResult.client h)).1 = some conn → conn.isOk = true := by
  unfold TCP_Server.accept
  rw [if_pos hl]
  refine ⟨rfl, ?_⟩
  intro conn hconn
  cases hconn
  rfl

theorem C2_accept_success_witness :
    ((TCP_Server.construct 80 (BindResult.ok 7)).accept (AcceptResult.client 9)).1
      = some (TCP_Connection.ofHandle 9) :=
  (C2_accept_success (TCP_Server.construct 80 (BindResult.ok 7)) 9 rfl).1

/-- C4: for an open connection (given that the platform primitive reports a
positive count whenever it delivers data, as `recv` does), `read` returns `0`
exactly when the peer cleanly closed the stream; an end-of-stream return
leaves `is_open` (hence `isOk()`) true; and a negative return means the
object is now failed, with the platform diagnostic available through
`get_failure()`. -/
theorem C4_read_eof (c : TCP_Connection) (count : Nat) (os : RecvResult)
    (hopen : c.is_open = true) (hdata : ∀ n, os = RecvResult.data n → 0 < n) :
    ((c.read count os).1 = 0 ↔ os = RecvResult.eof) ∧
    (os = RecvResult.eof →
      (c.read count os).2.is_open = true ∧ (c.read count os).2.isOk = true) ∧
    ((c.read count os).1 < 0 →
      (c.read count os).2.is_open = false ∧
      ∃ msg, os = RecvResult.fail msg ∧ ((c.read count os).2.get_failure).1 = msg) := by
  cases os with
  | data n =>
      have hn : 0 < n := hdata n rfl
      have hval : (c.read count (RecvResult.data n)).1 = (n : Int) := by
        unfold TCP_Connection.read; rw [if_pos hopen]
      have hst : (c.read count (RecvResult.data n)).2 = c := by
        unfold TCP_Connection.read; rw [if_pos hopen]
      rw [hval, hst]
      refine ⟨⟨fun h0 => ?_, fun h => ?_⟩, fun h => ?_, fun hneg => ?_⟩
      · exact absurd (by exact_mod_cast h0 : n = 0) (Nat.pos_iff_ne_zero.mp hn)
      · exact nomatch h
      · exact nomatch h
      · exact absurd hneg (Int.natCast_nonneg n).not_lt
  | eof =>
      have hval : (c.read count RecvResult.eof).1 = 0 := by
        unfold TCP_Connection.read; rw [if_pos hopen]
      have hst : (c.read count RecvResult.eof).2 = c := by
        unfold TCP_Connection.read; rw [if_pos hopen]
      rw [hval, hst]
      exact ⟨⟨fun _ => rfl, fun _ => rfl⟩, fun _ => ⟨hopen, hopen⟩,
        fun hneg => absurd hneg (by decide)⟩
  | fail msg =>
      have hval : (c.read count (RecvResult.fail msg)).1 = -1 := by
        unfold TCP_Connection.read; rw [if_pos hopen]
      have hst : (c.read count (RecvResult.fail msg)).2 =
          { c with is_open := false, failure_reason := msg } := by
        unfold TCP_Connection.read; rw [if_pos hopen]
      rw [hval, hst]
      refine ⟨⟨fun h0 => absurd h0 (by decide), fun h => ?_⟩, fun h => ?_,
        fun _ => ⟨rfl, msg, rfl, rfl⟩⟩
      · exact nomatch h
      · exact nomatch h

theorem C4_read_eof_witness :
    ((TCP_Connection.ofHandle 3).read 16 RecvResult.eof).1 = 0 := by
  have h := C4_read_eof (TCP_Connection.ofHandle 3) 16 RecvResult.eof rfl
    (fun n hn => by cases hn)
  exact h.1.mpr rfl

/-- C5: destruction releases the underlying OS handle exactly once.  If the
open/listening flag is true the destructor closes exactly the object's own
handle (one release); if the flag is false it releases nothing; in every
case at most one handle is closed, and never a handle other than the
object's own. -/
theorem C5_destroy_once (c : TCP_Connection) (s : TCP_Server) :
    (c.is_open = true → c.destroy = [c.connection_handle]) ∧
    (c.is_open = false → c.destroy = []) ∧
    c.destroy.length ≤ 1 ∧
    (s.is_listening = true → s.destroy = [s.listen_handle]) ∧
    (s.is_listening = false → s.destroy = []) ∧
    s.destroy.length ≤ 1 := by
  unfold TCP_Connection.destroy TCP_Server.destroy
  refine ⟨fun h => by rw [if_pos h], fun h => by rw [h]; rfl, ?_,
    fun h => by rw [if_pos h], fun h => by rw [h]; rfl, ?_⟩
  · cases c.is_open <;> simp
  · cases s.is_listening <;> simp

theorem C5_destroy_once_witness :
    (TCP_Connection.ofHandle 4).destroy = [4] ∧
    (TCP_Server.construct 80 (BindResult.fail "bind: address in use")).destroy = [] :=
  ⟨(C5_destroy_once (TCP_Connection.ofHandle 4)
      (TCP_Server.construct 80 (BindResult.fail "bind: address in use"))).1 rfl,
   (C5_destroy_once (TCP_Connection.ofHandle 4)
      (TCP_Server.construct 80 (BindResult.fail "bind: address in use"))).2.2.2.2.1 rfl⟩

/-- C3: `isOk()` returns exactly the `is_open` flag for connections
(src/connection.hpp lines 109-110) and exactly the `is_listening` flag for
servers (lines 183-184); and the invariant "`is_open = true` iff the stored
handle is in the set of live, usable sockets" is preserved by every I/O
operation under the modelled coupling with the OS (`connStep`). -/
theorem C3_isOk_flag (c : TCP_Connection) (s : TCP_Server) (live : Finset Nat)
    (e : ConnEvent) (hinv : c.is_open = true ↔ c.connection_handle ∈ live) :
    c.isOk = c.is_open ∧ s.isOk = s.is_listening ∧
    ((connStep c live e).1.is_open = true ↔
      (connStep c live e).1.connection_handle ∈ (connStep c live e).2) := by
  refine ⟨rfl, rfl, ?_⟩
  by_cases hc : c.is_open = true
  · cases e with
    | recv count os =>
        cases os with
        | data n =>
            have hs : connStep c live (ConnEvent.recv count (RecvResult.data n)) = (c, live) := by
              unfold connStep
              rw [if_pos hc]
              show ((c.read count (RecvResult.data n)).2, live) = (c, live)
              rw [c.read_state_data hc count n]
            rw [hs]; exact hinv
        | eof =>
            have hs : connStep c live (ConnEvent.recv count RecvResult.eof) = (c, live) := by
              unfold connStep
              rw [if_pos hc]
              show ((c.read count RecvResult.eof).2, live) = (c, live)
              rw [c.read_state_eof hc count]
            rw [hs]; exact hinv
        | fail msg =>
            have hs : connStep c live (ConnEvent.recv count (RecvResult.fail msg)) =
                ({ c with is_open := false, failure_reason := msg },
                  live.erase c.connection_handle) := by
              unfold connStep
              rw [if_pos hc]
              show ((c.read count (RecvResult.fail msg)).2, live.erase c.connection_handle) = _
              rw [c.read_state_fail hc count msg]
            rw [hs]
            simp
    | send count os =>
        cases os with
        | sent n =>
            have hs : connStep c live (ConnEvent.send count (SendResult.sent n)) = (c, live) := by
              unfold connStep
              rw [if_pos hc]
              show ((c.write count (SendResult.sent n)).2, live) = (c, live)
              rw [c.write_state_sent hc count n]
            rw [hs]; exact hinv
        | fail msg =>
            have hs : connStep c live (ConnEvent.send count (SendResult.fail msg)) =
                ({ c with is_open := false, failure_reason := msg },
                  live.erase c.connection_handle) := by
              unfold connStep
              rw [if_pos hc]
              show ((c.write count (SendResult.fail msg)).2, live.erase c.connection_handle) = _
              rw [c.write_state_fail hc count msg]
            rw [hs]
            simp
  · have hs : connStep c live e = (c, live) := by
      unfold connStep
      rw [if_neg hc]
    rw [hs]; exact hinv

theorem C3_isOk_flag_witness :
    ((connStep (TCP_Connection.ofHandle 5) {5}
        (ConnEvent.recv 8 (RecvResult.fail "connection reset by peer"))).1.is_open = true ↔
      (connStep (TCP_Connection.ofHandle 5) {5}
        (ConnEvent.recv 8 (RecvResult.fail "connection reset by peer"))).1.connection_handle ∈
      (connStep (TCP_Connection.ofHandle 5) {5}
        (ConnEvent.recv 8 (RecvResult.fail "connection reset by peer"))).2) :=
  (C3_isOk_flag (TCP_Connection.ofHandle 5) (TCP_Server.construct 80 (BindResult.ok 7)) {5}
    (ConnEvent.recv 8 (RecvResult.fail "connection reset by peer")) (by decide)).2.2

/-- C7: Closed is terminal.  No `read`, no `write` — and no finite sequence of
them — ever turns `is_open` from false back to true (each can only preserve or
clear the flag); `get_failure` does not change the object at all; and
`accept` never turns `is_listening` from false back to true. -/
theorem C7_closed_terminal (c : TCP_Connection) (s : TCP_Server) (count : Nat)
    (ros : RecvResult) (wos : SendResult) (aos : AcceptResult) (es : List ConnEvent) :
    ((c.read count ros).2.is_open = true → c.is_open = true) ∧
    ((c.write count wos).2.is_open = true → c.is_open = true) ∧
    ((es.foldl connExec c).is_open = true → c.is_open = true) ∧
    (c.get_failure).2 = c ∧
    ((s.accept aos).2.is_listening = true → s.is_listening = true) := by
  have hfold : ∀ (l : List ConnEvent) (c : TCP_Connection),
      (l.foldl connExec c).is_open = true → c.is_open = true := by
    intro l
    induction l with
    | nil => exact fun c h => h
    | cons e t ih => exact fun c h => connExec_open_mono c e (ih (connExec c e) h)
  refine ⟨c.read_open_mono count ros, c.write_open_mono count wos, hfold es c, rfl, ?_⟩
  unfold TCP_Server.accept
  split
  · next hl =>
      cases aos with
      | client h => exact fun _ => hl
      | fail msg => exact fun hcontra => absurd hcontra Bool.false_ne_true
  · exact fun h => h

theorem C7_closed_terminal_witness : (TCP_Connection.ofHandle 2).is_open = true :=
  (C7_closed_terminal (TCP_Connection.ofHandle 2) (TCP_Server.construct 1 (BindResult.ok 3)) 4
    RecvResult.eof (SendResult.sent 4) (AcceptResult.client 6)
    [ConnEvent.recv 4 RecvResult.eof]).2.2.1 (by decide)

/-- C8: a successful operation never touches the stored diagnostic — a `read`
or `write` returning a non-negative count leaves `failure_reason` unchanged,
and an `accept` that returns a connection leaves the server's
`failure_reason` unchanged; `get_failure()` returns exactly the last recorded
diagnostic string. -/
theorem C8_failure_frame (c : TCP_Connection) (s : TCP_Server) (count : Nat)
    (ros : RecvResult) (wos : SendResult) (aos : AcceptResult) :
    (0 ≤ (c.read count ros).1 → (c.read count ros).2.failure_reason = c.failure_reason) ∧
    (0 ≤ (c.write count wos).1 → (c.write count wos).2.failure_reason = c.failure_reason) ∧
    (∀ conn, (s.accept aos).1 = some conn →
      (s.accept aos).2.failure_reason = s.failure_reason) ∧
    (c.get_failure).1 = c.failure_reason ∧
    (s.get_failure).1 = s.failure_reason := by
  refine ⟨?_, ?_, ?_, rfl, rfl⟩
  · by_cases hc : c.is_open = true
    · cases ros with
      | data n => rw [c.read_state_data hc count n]; exact fun _ => rfl
      | eof => rw [c.read_state_eof hc count]; exact fun _ => rfl
      | fail msg =>
          have hval : (c.read count (RecvResult.fail msg)).1 = -1 := by
            unfold TCP_Connection.read; rw [if_pos hc]
          rw [hval]
          exact fun habs => absurd habs (by decide)
    · have hval : c.read count ros = (-1, c) := by
        unfold TCP_Connection.read; rw [if_neg hc]
      rw [hval]
      exact fun _ => rfl
  · by_cases hc : c.is_open = true
    · cases wos with
      | sent n => rw [c.write_state_sent hc count n]; exact fun _ => rfl
      | fail msg =>
          have hval : (c.write count (SendResult.fail msg)).1 = -1 := by
            unfold TCP_Connection.write; rw [if_pos hc]
          rw [hval]
          exact fun habs => absurd habs (by decide)
    · have hval : c.write count wos = (-1, c) := by
        unfold TCP_Connection.write; rw [if_neg hc]
      rw [hval]
      exact fun _ => rfl
  · unfold TCP_Server.accept
    split
    · cases aos with
      | client h => exact fun _ _ => rfl
      | fail msg => exact fun conn hcontra => nomatch hcontra
    · exact fun conn hcontra => nomatch hcontra

theorem C8_failure_frame_witness :
    ((TCP_Connection.ofHandle 9).read 4 (RecvResult.data 4)).2.failure_reason =
      (TCP_Connection.ofHandle 9).failure_reason :=
  (C8_failure_frame (TCP_Connection.ofHandle 9) (TCP_Server.construct 80 (BindResult.ok 7)) 4
    (RecvResult.data 4) (SendResult.sent 4) (AcceptResult.client 6)).1 (by decide)

/-- C9: on a freshly constructed object on which no failure has been
recorded — one made by the handle-adopting constructor, a successful
connecting constructor, or a successful server constructor — `get_failure()`
returns the empty string: the `failure_reason` member declared at
src/connection.hpp lines 67 and 157 is a default-constructed `std::string`,
never uninitialized. -/
theorem C9_fresh_failure_empty (h : Nat) (host : String) (port hc hs : Nat) :
    ((TCP_Connection.ofHandle h).get_failure).1 = "" ∧
    ((TCP_Connection.connect host port (ConnectResult.ok hc)).get_failure).1 = "" ∧
    ((TCP_Server.construct port (BindResult.ok hs)).get_failure).1 = "" :=
  ⟨rfl, rfl, rfl⟩

/-- C10: `get_failure` (src/connection.hpp lines 63-64 and 153-154) is a pure
query on both base classes: it returns exactly the stored `failure_reason`
and leaves the object — every field, including the derived handle and flag —
unchanged, so two consecutive calls return the same string. -/
theorem C10_get_failure_pure (c : TCP_Connection) (s : TCP_Server) :
    (c.get_failure).1 = c.failure_reason ∧
    (c.get_failure).2 = c ∧
    (((c.get_failure).2.get_failure).1 = (c.get_failure).1) ∧
    (s.get_failure).1 = s.failure_reason ∧
    (s.get_failure).2 = s ∧
    (((s.get_failure).2.get_failure).1 = (s.get_failure).1) :=
  ⟨rfl, rfl, rfl, rfl, rfl, rfl⟩

theorem heldConnHandles_cons (c : TCP_Connection) (l : List TCP_Connection) :
    heldConnHandles (c :: l) =
      if c.is_open then c.connection_handle :: heldConnHandles l else heldConnHandles l := by
  cases hc : c.is_open <;> simp [heldConnHandles, hc]

theorem heldConnHandles_append (l₁ l₂ : List TCP_Connection) :
    heldConnHandles (l₁ ++ l₂) = heldConnHandles l₁ ++ heldConnHandles l₂ := by
  simp [heldConnHandles]

theorem heldServerHandles_cons (s : TCP_Server) (l : List TCP_Server) :
    heldServerHandles (s :: l) =
      if s.is_listening then s.listen_handle :: heldServerHandles l
      else heldServerHandles l := by
  cases hs : s.is_listening <;> simp [heldServerHandles, hs]

theorem heldServerHandles_append (l₁ l₂ : List TCP_Server) :
    heldServerHandles (l₁ ++ l₂) = heldServerHandles l₁ ++ heldServerHandles l₂ := by
  simp [heldServerHandles]

theorem sysStep_held_nodup {st st' : SysState} (hstep : SysStep st st')
    (hn : st.held.Nodup) : st'.held.Nodup := by
  cases hstep with
  | adopt st0 h hfresh =>
      have he : SysState.held ⟨TCP_Connection.ofHandle h :: st.conns, st.servers⟩ =
          h :: st.held := by
        simp [SysState.held, heldConnHandles_cons, TCP_Connection.ofHandle]
      rw [he]
      exact List.nodup_cons.mpr ⟨hfresh, hn⟩
  | connectOk st0 host port h hfresh =>
      have he : SysState.held
          ⟨TCP_Connection.connect host port (ConnectResult.ok h) :: st.conns, st.servers⟩ =
          h :: st.held := by
        simp [SysState.held, heldConnHandles_cons, TCP_Connection.connect]
      rw [he]
      exact List.nodup_cons.mpr ⟨hfresh, hn⟩
  | connectFail st0 host port msg =>
      have he : SysState.held
          ⟨TCP_Connection.connect host port (ConnectResult.fail msg) :: st.conns,
            st.servers⟩ = st.held := by
        simp [SysState.held, heldConnHandles_cons, TCP_Connection.connect]
      rw [he]
      exact hn
  | listenOk st0 port h hfresh =>
      have he : SysState.held
          ⟨st.conns, TCP_Server.construct port (BindResult.ok h) :: st.servers⟩ =
          heldConnHandles st.conns ++ h :: heldServerHandles st.servers := by
        simp [SysState.held, heldServerHandles_cons, TCP_Server.construct]
      rw [he, List.nodup_middle]
      exact List.nodup_cons.mpr ⟨hfresh, hn⟩
  | listenFail st0 port msg =>
      have he : SysState.held
          ⟨st.conns, TCP_Server.construct port (BindResult.fail msg) :: st.servers⟩ =
          st.held := by
        simp [SysState.held, heldServerHandles_cons, TCP_Server.construct]
      rw [he]
      exact hn
  | io pre c post servers e =>
      refine List.Nodup.sublist ?_ hn
      by_cases ho : (connExec c e).is_open = true
      · have hco : c.is_open = true := connExec_open_mono c e ho
        have he : SysState.held ⟨pre ++ connExec c e :: post, servers⟩ =
            SysState.held ⟨pre ++ c :: post, servers⟩ := by
          simp [SysState.held, heldConnHandles_append, heldConnHandles_cons, ho, hco,
            connExec_handle]
        rw [he]
      · have he : SysState.held ⟨pre ++ connExec c e :: post, servers⟩ =
            heldConnHandles pre ++ (heldConnHandles post ++ heldServerHandles servers) := by
          simp [SysState.held, heldConnHandles_append, heldConnHandles_cons, ho]
        rw [he]
        by_cases hco : c.is_open = true
        · have he2 : SysState.held ⟨pre ++ c :: post, servers⟩ =
              heldConnHandles pre ++ c.connection_handle ::
                (heldConnHandles post ++ heldServerHandles servers) := by
            simp [SysState.held, heldConnHandles_append, heldConnHandles_cons, hco]
          rw [he2]
          exact List.Sublist.append_left (List.sublist_cons_self _ _) _
        · have he2 : SysState.held ⟨pre ++ c :: post, servers⟩ =
              heldConnHandles pre ++ (heldConnHandles post ++ heldServerHandles servers) := by
            simp [SysState.held, heldConnHandles_append, heldConnHandles_cons, hco]
          rw [he2]
  | acceptOp conns pre s post os hfresh =>
      by_cases hl : s.is_listening = true
      · cases os with
        | client h =>
            have hacc : s.accept (AcceptResult.client h) =
                (some (TCP_Connection.ofHandle h), s) := by
              unfold TCP_Server.accept; rw [if_pos hl]
            have he : SysState.held
                ⟨(s.accept (AcceptResult.client h)).1.toList ++ conns,
                  pre ++ (s.accept (AcceptResult.client h)).2 :: post⟩ =
                h :: SysState.held ⟨conns, pre ++ s :: post⟩ := by
              rw [hacc]
              simp [SysState.held, heldConnHandles_cons, heldConnHandles_append,
                TCP_Connection.ofHandle]
            rw [he]
            exact List.nodup_cons.mpr ⟨hfresh h rfl, hn⟩
        | fail msg =>
            have hacc : s.accept (AcceptResult.fail msg) =
                (none, { s with is_listening := false, failure_reason := msg }) := by
              unfold TCP_Server.accept; rw [if_pos hl]
            refine List.Nodup.sublist ?_ hn
            have he : SysState.held
                ⟨(s.accept (AcceptResult.fail msg)).1.toList ++ conns,
                  pre ++ (s.accept (AcceptResult.fail msg)).2 :: post⟩ =
                heldConnHandles conns ++
                  (heldServerHandles pre ++ heldServerHandles post) := by
              rw [hacc]
              simp [SysState.held, heldServerHandles_append, heldServerHandles_cons]
            have he2 : SysState.held ⟨conns, pre ++ s :: post⟩ =
                heldConnHandles conns ++
                  (heldServerHandles pre ++ s.listen_handle :: heldServerHandles post) := by
              simp [SysState.held, heldServerHandles_append, heldServerHandles_cons, hl]
            rw [he, he2]
            exact List.Sublist.append_left
              (List.Sublist.append_left (List.sublist_cons_self _ _) _) _
      · have hacc : s.accept os = (none, s) := by
          unfold TCP_Server.accept; rw [if_neg hl]
        have he : SysState.held
            ⟨(s.accept os).1.toList ++ conns, pre ++ (s.accept os).2 :: post⟩ =
            SysState.held ⟨conns, pre ++ s :: post⟩ := by
          rw [hacc]
          simp
        rw [he]
        exact hn
  | destroyConn pre c post servers =>
      refine List.Nodup.sublist ?_ hn
      have he : SysState.held ⟨pre ++ post, servers⟩ =
          heldConnHandles pre ++ (heldConnHandles post ++ heldServerHandles servers) := by
        simp [SysState.held, heldConnHandles_append]
      rw [he]
      by_cases hco : c.is_open = true
      · have he2 : SysState.held ⟨pre ++ c :: post, servers⟩ =
            heldConnHandles pre ++ c.connection_handle ::
              (heldConnHandles post ++ heldServerHandles servers) := by
          simp [SysState.held, heldConnHandles_append, heldConnHandles_cons, hco]
        rw [he2]
        exact List.Sublist.append_left (List.sublist_cons_self _ _) _
      · have he2 : SysState.held ⟨pre ++ c :: post, servers⟩ =
            heldConnHandles pre ++ (heldConnHandles post ++ heldServerHandles servers) := by
          simp [SysState.held, heldConnHandles_append, heldConnHandles_cons, hco]
        rw [he2]
  | destroyServer conns pre s post =>
      refine List.Nodup.sublist ?_ hn
      have he : SysState.held ⟨conns, pre ++ post⟩ =
          heldConnHandles conns ++ (heldServerHandles pre ++ heldServerHandles post) := by
        simp [SysState.held, heldServerHandles_append]
      rw [he]
      by_cases hls : s.is_listening = true
      · have he2 : SysState.held ⟨conns, pre ++ s :: post⟩ =
            heldConnHandles conns ++
              (heldServerHandles pre ++ s.listen_handle :: heldServerHandles post) := by
          simp [SysState.held, heldServerHandles_append, heldServerHandles_cons, hls]
        rw [he2]
        exact List.Sublist.append_left
          (List.Sublist.append_left (List.sublist_cons_self _ _) _) _
      · have he2 : SysState.held ⟨conns, pre ++ s :: post⟩ =
            heldConnHandles conns ++ (heldServerHandles pre ++ heldServerHandles post) := by
          simp [SysState.held, heldServerHandles_append, heldServerHandles_cons, hls]
        rw [he2]

/-- C6: exclusive ownership — because the population of live objects evolves
only by the embedded constructors, I/O, `accept` and destruction, with no
copy operation (copying is disabled at src/connection.hpp lines 120-122 and
194-196) and handles entering only through a constructor-mediated hand-off,
every state reachable from the empty population has pairwise-distinct
handles among its open connections and listening servers: no two live
objects ever hold the same platform handle. -/
theorem C6_no_handle_aliasing (st : SysState)
    (hreach : Relation.ReflTransGen SysStep ⟨[], []⟩ st) : st.held.Nodup := by
  induction hreach with
  | refl => exact List.nodup_nil
  | tail hsteps hstep ih => exact sysStep_held_nodup hstep ih

theorem C6_no_handle_aliasing_witness :
    (SysState.mk [TCP_Connection.ofHandle 5] []).held.Nodup :=
  C6_no_handle_aliasing ⟨[TCP_Connection.ofHandle 5], []⟩
    (Relation.ReflTransGen.single (SysStep.adopt ⟨[], []⟩ 5 (by decide)))

end netstream
